import Mathlib

/-!
Shallow embedding of `src/cache.js` from the withData repository: an
in-memory key/value cache with time-based expiry, a fetch-or-cache
orchestrator (`observeData`) and an observation registry.

JavaScript values are modelled by the inductive `JSVal`; machine time is an
`Int` number of milliseconds passed explicitly to each operation that reads
the clock.  Promises are run to settlement, so each exported operation is a
pure function from (time, store, inputs) to its observable outcome: the new
store, the lists of `onNext` / `onError` invocations, the number of producer
calls, and the observation registrations made.
-/

namespace WithData

/-- A JavaScript value, as far as the cache manipulates them: `undefined`,
`null`, booleans, numbers, strings and plain objects (ordered field lists). -/
inductive JSVal where
  | vUndefined
  | vNull
  | vBool (b : Bool)
  | vNum (n : Int)
  | vStr (s : String)
  | vObj (fields : List (String × JSVal))

open JSVal

/-- JavaScript truthiness of a `JSVal` (objects are always truthy;
`undefined`, `null`, `false`, `0` and the empty string are falsy). -/
def truthy : JSVal → Bool
  | vUndefined => false
  | vNull => false
  | vBool b => b
  | vNum n => decide (n ≠ 0)
  | vStr s => decide (s ≠ "")
  | vObj _ => true

/-- Own enumerable fields of a value, as taken by object spread and rest
destructuring: objects give their fields, strings their index properties,
other primitives none. -/
def getOwnFields : JSVal → List (String × JSVal)
  | vObj fs => fs
  | vStr s => s.toList.enum.map (fun p => (toString p.1, vStr (String.mk [p.2])))
  | _ => []

/-- Semantics of the object literal update used by spread, as in
`\x7b ...o, name: v \x7d`: replace the field in place when present,
append it otherwise. -/
def mergeField (fs : List (String × JSVal)) (name : String) (v : JSVal) :
    List (String × JSVal) :=
  if fs.any (fun p => p.1 = name) then
    fs.map (fun p => if p.1 = name then (name, v) else p)
  else fs ++ [(name, v)]

/-- Whether an object value has a field of the given name (false for
non-objects). -/
def hasField (v : JSVal) (name : String) : Bool :=
  match v with
  | vObj fs => fs.any (fun p => p.1 = name)
  | _ => false

/-- Property lookup on a field list; absent fields read as `undefined`. -/
def lookupField (fs : List (String × JSVal)) (name : String) : JSVal :=
  match fs.lookup name with
  | some v => v
  | none => vUndefined

/-- Rest destructuring `(\x7b __cacheKey, __fromCache, ...data \x7d)`:
the remaining fields after removing the two bookkeeping ones. -/
def stripFields (fs : List (String × JSVal)) : List (String × JSVal) :=
  fs.filter (fun p => decide (p.1 ≠ "__cacheKey" ∧ p.1 ≠ "__fromCache"))

/-- String coercion applied when a `JSVal` is used as a storage key. -/
def jsKeyString : JSVal → String
  | vStr s => s
  | vUndefined => "undefined"
  | vNull => "null"
  | vBool b => if b then "true" else "false"
  | vNum n => toString n
  | vObj _ => "[object Object]"

/-- A stored cache entry: the value together with an optional expiration
timestamp in milliseconds (`none` means "no expiration recorded"). -/
structure Entry where
  value : JSVal
  expiresAt : Option Int

/-- The backing store: an insertion-ordered association list from string
keys to entries. -/
abbrev Store := List (String × Entry)

/-- The underlying engine read (`store.get` with the expire plugin): the
stored value, or `undefined` when the key is missing or the entry's
expiration has passed (an entry is logically absent once `expiresAt ≤ now`). -/
def storeGet (now : Int) (st : Store) (k : String) : JSVal :=
  match st.lookup k with
  | none => vUndefined
  | some en =>
    match en.expiresAt with
    | none => en.value
    | some e => if e ≤ now then vUndefined else en.value

/-- The underlying `store.getExpiration`: the recorded expiration timestamp,
`none` when the key is missing or carries no expiration. -/
def rawExpiration (st : Store) (k : String) : Option Int :=
  match st.lookup k with
  | some en => en.expiresAt
  | none => none

/-- The underlying engine write: overwrite the entry in place when the key
is present, append it otherwise. -/
def storeSet (st : Store) (k : String) (v : JSVal) (e : Option Int) : Store :=
  if st.any (fun p => p.1 = k) then
    st.map (fun p => if p.1 = k then (k, ⟨v, e⟩) else p)
  else st ++ [(k, ⟨v, e⟩)]

/-- The third argument of the exported `set`: a JavaScript number, the
literal `null`, or left unset (`undefined`). -/
inductive MaxAge where
  | unset
  | null
  | num (n : Int)
deriving DecidableEq

/-- `maxAge || defaultConfig.maxAge`: any falsy max-age (unset, `null`,
or the number `0`) falls back to the default of 1 second. -/
def userMaxAgeOrDefault : MaxAge → Int
  | MaxAge.num n => if n = 0 then 1 else n
  | _ => 1

/-- The value of `existingExpiration` in `set`:
`store.get(cacheKey) ? store.getExpiration(cacheKey) : null`.  The outer
`none` is the `null` branch (key missing, expired, or holding a falsy
value); `some none` is a live truthy entry without a recorded expiration
(`getExpiration` returns `undefined`). -/
def existingExpirationOf (now : Int) (st : Store) (k : String) :
    Option (Option Int) :=
  if truthy (storeGet now st k) then some (rawExpiration st k) else none

/-- JavaScript falsiness of `existingExpiration` (`null`, `undefined` and
`0` are falsy). -/
def existingExpirationFalsy (now : Int) (st : Store) (k : String) : Bool :=
  match existingExpirationOf now st k with
  | some (some e) => decide (e = 0)
  | _ => true

/-- The exported `set(cacheKey, value, maxAge)` of `cache.js`.  It computes
`expiresAt = Math.max(existingExpiration, now + maxAgeOrDefault * 1000)`;
when no (truthy) existing expiration is found and `maxAge === null` it
stores without an expiration ("never expire").  When the existing entry is
live and truthy but has no recorded expiration, `Math.max(undefined, x)`
is `NaN`, which the expire plugin's falsiness check turns into "store with
no expiration"; that case is the `some none` branch. -/
def jsSet (now : Int) (st : Store) (cacheKey : String) (value : JSVal)
    (maxAge : MaxAge) : Store :=
  let newExpiration : Int := now + userMaxAgeOrDefault maxAge * 1000
  if existingExpirationFalsy now st cacheKey ∧ maxAge = MaxAge.null then
    storeSet st cacheKey value none
  else
    match existingExpirationOf now st cacheKey with
    | none => storeSet st cacheKey value (some (max 0 newExpiration))
    | some none => storeSet st cacheKey value none
    | some (some e) => storeSet st cacheKey value (some (max e newExpiration))

/-- The exported `getSync(cacheKey)`: annotate a truthy result with the two
bookkeeping fields (`result && \x7b ...result, __cacheKey: cacheKey,
__fromCache: true \x7d`); a falsy result (including the `undefined` of a
missing or expired key) is returned as is. -/
def getSync (now : Int) (st : Store) (cacheKey : String) : JSVal :=
  let result := storeGet now st cacheKey
  if truthy result then
    vObj (mergeField (mergeField (getOwnFields result) "__cacheKey" (vStr cacheKey))
      "__fromCache" (vBool true))
  else result

/-- The per-entry keep condition of the exported `removeExpiredKeys`: the
entry is removed when `expiresAt && expiresAt <= now` (a falsy recorded
expiration is never removed). -/
def sweepKeeps (now : Int) (en : Entry) : Bool :=
  match en.expiresAt with
  | none => true
  | some e => if e ≠ 0 ∧ e ≤ now then false else true

/-- The exported `removeExpiredKeys()`: iterate all entries and remove each
one whose recorded expiration is truthy and has passed. -/
def removeExpiredKeys (now : Int) (st : Store) : Store :=
  st.filter (fun p => sweepKeeps now p.2)

/-- The predicate in the spec's words for claim C7: an entry is expired at
call time when it has a recorded `expiresAt` that is `≤ now`. -/
def expiredAtCallTime (now : Int) (en : Entry) : Bool :=
  match en.expiresAt with
  | none => false
  | some e => decide (e ≤ now)

/-- All recorded expirations in the store are positive timestamps
(milliseconds since epoch, per the spec's numeric semantics). -/
def posExpirations (st : Store) : Bool :=
  st.all (fun p =>
    match p.2.expiresAt with
    | none => true
    | some e => decide (0 < e))

/-- The options object of `observeData`, after the spread with
`defaultConfig`: `maxAge` (defaulted to 1 second when unset), `noCache`
and `pollInterval`. -/
structure Options where
  maxAge : MaxAge := MaxAge.unset
  noCache : Bool := false
  pollInterval : Option Int := none

/-- The effective `maxAge` after `\x7b ...defaultConfig, ...options \x7d`:
an unset option is replaced by the default 1 second. -/
def effMaxAge (o : Options) : MaxAge :=
  match o.maxAge with
  | MaxAge.unset => MaxAge.num 1
  | m => m

/-- Truthiness of `options.pollInterval`. -/
def pollTruthy (o : Options) : Bool :=
  match o.pollInterval with
  | some n => decide (n ≠ 0)
  | none => false

/-- Observable outcome of one settled run of the `fetchFreshData` promise
chain: the updated store, the `onNext` and `onError` invocations, the number
of calls made to the producer, and the chain's resolution value (the storage
key on success, `undefined` — the return of `onError` — on rejection). -/
structure FetchOut where
  store : Store
  onNextCalls : List JSVal
  onErrorCalls : List JSVal
  producerCalls : Nat
  resolvedKey : JSVal

/-- The `fetchFreshData` closure of `observeData`:
`dataFn().then(destructure-and-store).catch(onError)`.  On resolution the
bookkeeping fields are split off, the key is `__cacheKey || defaultKey`,
the payload is persisted via `set` unless `__fromCache` is truthy, and
`onNext(data)` fires; on rejection `onError(error)` fires and the chain
resolves with `undefined`. -/
def fetchFreshData (now : Int) (st : Store) (defaultKey : String)
    (maxAge : MaxAge) (presult : Except JSVal JSVal) : FetchOut :=
  match presult with
  | Except.error e => ⟨st, [], [e], 1, vUndefined⟩
  | Except.ok resolved =>
    let fs := getOwnFields (if (match resolved with
        | vUndefined => true
        | _ => false) then vObj [] else resolved)
    let ck := lookupField fs "__cacheKey"
    let fc := lookupField fs "__fromCache"
    let data := vObj (stripFields fs)
    let key : JSVal := if truthy ck then ck else vStr defaultKey
    let st2 := if truthy fc then st else jsSet now st (jsKeyString key) data maxAge
    ⟨st2, [data], [], 1, key⟩

/-- Observable outcome of one `observeData` invocation, run to settlement:
the store after the call, the `onNext` / `onError` invocations, the number
of producer calls made during the invocation, the keys on which
observations were registered via `store.observe` (in order), and whether a
poll timer was scheduled. -/
structure Outcome where
  store : Store
  onNextCalls : List JSVal
  onErrorCalls : List JSVal
  producerCalls : Nat
  registeredKeys : List JSVal
  pollScheduled : Bool

/-- The `cachedData` binding of `observeData`:
`keyName && store.get(defaultKey)` (a falsy `keyName` short-circuits to
itself, skipping the lookup). -/
def cachedDataOf (now : Int) (st : Store) (keyName : String) : JSVal :=
  if keyName = "" then vStr "" else storeGet now st ("withData__" ++ keyName)

/-- The `shouldUseCache` binding of `observeData`: `!noCache && cachedData`. -/
def shouldUseCacheB (now : Int) (st : Store) (keyName : String)
    (o : Options) : Bool :=
  !o.noCache && truthy (cachedDataOf now st keyName)

/-- The exported `observeData(keyName, dataFn, onNext, onError, options)`,
run to settlement of the returned promise.  The producer is modelled by its
settlement `presult`; a poll timer, when `pollInterval` is truthy, is
recorded as scheduled (its ticks are separate later events, see
`producerCallsAfterOneTick`).  On the cache-hit path `onNext` receives the
raw `cachedData` and an observation is registered on the default key; on
the fetch path the fetch chain runs and an observation is registered on its
resolution value — even after a rejection, where that value is `undefined`. -/
def observeData (now : Int) (st : Store) (keyName : String)
    (presult : Except JSVal JSVal) (opts : Options) : Outcome :=
  let defaultKey := "withData__" ++ keyName
  let cachedData := cachedDataOf now st keyName
  if shouldUseCacheB now st keyName opts then
    { store := st
      onNextCalls := [cachedData]
      onErrorCalls := []
      producerCalls := 0
      registeredKeys := [vStr defaultKey]
      pollScheduled := pollTruthy opts }
  else
    let f := fetchFreshData now st defaultKey (effMaxAge opts) presult
    { store := f.store
      onNextCalls := f.onNextCalls
      onErrorCalls := f.onErrorCalls
      producerCalls := f.producerCalls
      registeredKeys := [f.resolvedKey]
      pollScheduled := pollTruthy opts }

/-- Total number of producer invocations after one `observeData` call at
`now` followed by one tick of its poll timer at `tickNow` (the tick re-runs
`fetchFreshData` with the captured default key and max-age; `tickResult` is
the producer's settlement at that tick).  When no poll was scheduled there
is no tick. -/
def producerCallsAfterOneTick (now tickNow : Int) (st : Store)
    (keyName : String) (presult tickResult : Except JSVal JSVal)
    (opts : Options) : Nat :=
  let out := observeData now st keyName presult opts
  out.producerCalls +
    (if out.pollScheduled then
      (fetchFreshData tickNow out.store ("withData__" ++ keyName)
        (effMaxAge opts) tickResult).producerCalls
    else 0)

/-- Modelled from the spec: the observation registry kept by the repo's
`./observePlugin`, which is not under `src/`.  Only the shape needed by
`unobserveData` is modelled: a list of (handle id, observed key) pairs. -/
abbrev ObsRegistry := List (Nat × String)

/-- Modelled from the spec: `store.unobserve(id)` of the observe plugin
(not under `src/`).  Per the comment in `cache.js`, it errors when asked to
unobserve a handle that is not (or no longer) registered; otherwise it
removes the registration. -/
def storeUnobserve (reg : ObsRegistry) (id : Nat) : Except String ObsRegistry :=
  if reg.any (fun p => p.1 = id) then
    Except.ok (reg.filter (fun p => decide (p.1 ≠ id)))
  else Except.error "unknown observable"

/-- The exported `unobserveData(observeId)`: `store.unobserve` wrapped in
try/catch; a thrown error is swallowed and logged (the `Bool` records
whether the warning was logged). -/
def unobserveData (reg : ObsRegistry) (id : Nat) : ObsRegistry × Bool :=
  match storeUnobserve reg id with
  | Except.ok r => (r, false)
  | Except.error _ => (reg, true)

/-- Looking up the key just written by `storeSet` finds the new entry. -/
theorem lookup_storeSet_self (st : Store) (k : String) (v : JSVal) (e : Option Int) :
    (storeSet st k v e).lookup k = some ⟨v, e⟩ := by
  unfold storeSet
  split
  · rename_i h
    induction st with
    | nil => simp at h
    | cons hd tl ih =>
      obtain ⟨a, b⟩ := hd
      by_cases hk : a = k
      · subst hk
        simp only [List.map_cons]
        rw [if_pos trivial]
        rw [List.lookup]
        simp
      · simp only [List.map_cons]
        rw [if_neg (by simpa using hk)]
        rw [List.lookup]
        have hb : (k == a) = false := by simp [Ne.symm hk]
        rw [hb]
        apply ih
        simp only [List.any_cons, Bool.or_eq_true, decide_eq_true_eq] at h
        rcases h with h | h
        · exact absurd h hk
        · simpa using h
  · rename_i h
    induction st with
    | nil => simp [List.lookup]
    | cons hd tl ih =>
      obtain ⟨a, b⟩ := hd
      simp only [List.any_cons, Bool.or_eq_true, decide_eq_true_eq, not_or] at h
      rw [List.cons_append, List.lookup]
      have hb : (k == a) = false := by simp [Ne.symm h.1]
      rw [hb]
      apply ih
      simpa using h.2

/-- After `storeSet`, every entry carrying the written key holds the new
value and expiration (the in-place map replaces each occurrence). -/
theorem mem_storeSet_uniform (st : Store) (k : String) (v : JSVal) (e : Option Int) :
    ∀ p ∈ storeSet st k v e, p.1 = k → p = (k, ⟨v, e⟩) := by
  intro p hp hpk
  unfold storeSet at hp
  split at hp
  · rw [List.mem_map] at hp
    obtain ⟨q, hq, hqe⟩ := hp
    by_cases hqk : q.1 = k
    · rw [if_pos hqk] at hqe; exact hqe.symm
    · rw [if_neg hqk] at hqe; subst hqe; exact absurd hpk hqk
  · rename_i h
    rw [List.mem_append] at hp
    rcases hp with hp | hp
    · exfalso
      rw [List.any_eq_true] at h
      exact h ⟨p, hp, by simpa using hpk⟩
    · simpa using hp

/-- Filtering cannot lose a key whose every occurrence is one fixed entry
that the filter keeps. -/
theorem lookup_filter_uniform (pr : String × Entry → Bool) (k : String) (en : Entry) :
    ∀ l : Store, (∀ q ∈ l, q.1 = k → q = (k, en)) → l.lookup k = some en →
      pr (k, en) = true → (l.filter pr).lookup k = some en := by
  intro l
  induction l with
  | nil => intro _ h; simp [List.lookup] at h
  | cons hd tl ih =>
    intro huni hlook hpr
    obtain ⟨a, b⟩ := hd
    by_cases hk : a = k
    · have heq : ((a, b) : String × Entry) = (k, en) := huni (a, b) (by simp) hk
      rw [heq, List.filter_cons, if_pos hpr, List.lookup]
      simp
    · rw [List.lookup] at hlook
      have hne : (k == a) = false := by simp [Ne.symm hk]
      rw [hne] at hlook
      have htl := ih (fun q hq => huni q (List.mem_cons_of_mem _ hq)) hlook hpr
      rw [List.filter_cons]
      split
      · rw [List.lookup, hne]
        exact htl
      · exact htl

/-- Reading back a key written without an expiration. -/
theorem storeGet_storeSet_none (now : Int) (st : Store) (k : String) (v : JSVal) :
    storeGet now (storeSet st k v none) k = v := by
  unfold storeGet
  rw [lookup_storeSet_self]

/-- Reading back a key written with an expiration. -/
theorem storeGet_storeSet_some (now : Int) (st : Store) (k : String) (v : JSVal)
    (x : Int) :
    storeGet now (storeSet st k v (some x)) k = if x ≤ now then vUndefined else v := by
  unfold storeGet
  rw [lookup_storeSet_self]

/-- With a non-`null` max-age and no usable existing expiration, `jsSet`
records `Math.max(null, now + age)`. -/
theorem jsSet_of_no_existing (now : Int) (st : Store) (k : String) (v : JSVal)
    (m : MaxAge) (hm : m ≠ MaxAge.null)
    (hex : existingExpirationOf now st k = none) :
    jsSet now st k v m = storeSet st k v (some (max 0 (now + userMaxAgeOrDefault m * 1000))) := by
  unfold jsSet
  rw [if_neg (fun h => hm h.2), hex]

/-- A live truthy entry without a recorded expiration makes the computed
`Math.max` a `NaN`, so the write stores no expiration. -/
theorem jsSet_of_noexp_existing (now : Int) (st : Store) (k : String) (v : JSVal)
    (m : MaxAge) (hm : m ≠ MaxAge.null)
    (hex : existingExpirationOf now st k = some none) :
    jsSet now st k v m = storeSet st k v none := by
  unfold jsSet
  rw [if_neg (fun h => hm h.2), hex]

/-- A live truthy entry with a recorded expiration extends it to the
maximum of the old and the newly computed expiration (this also covers a
`null` max-age, since a truthy existing expiration defeats the
never-expire branch). -/
theorem jsSet_of_exp_existing (now : Int) (st : Store) (k : String) (v : JSVal)
    (m : MaxAge) (e : Int) (hm : m ≠ MaxAge.null ∨ e ≠ 0)
    (hex : existingExpirationOf now st k = some (some e)) :
    jsSet now st k v m = storeSet st k v (some (max e (now + userMaxAgeOrDefault m * 1000))) := by
  have hcond : ¬(existingExpirationFalsy now st k = true ∧ m = MaxAge.null) := by
    intro hh
    rcases hm with hm | hm
    · exact hm hh.2
    · have hfal : existingExpirationFalsy now st k = false := by
        unfold existingExpirationFalsy
        rw [hex]
        simp [hm]
      rw [hfal] at hh
      exact Bool.false_ne_true hh.1
  unfold jsSet
  rw [if_neg hcond, hex]

/-- Reading a live object entry through `getSync` merges in the two
bookkeeping fields. -/
theorem getSync_of_live_obj (now : Int) (st : Store) (k : String)
    (fs : List (String × JSVal)) (h : storeGet now st k = vObj fs) :
    getSync now st k
      = vObj (mergeField (mergeField fs "__cacheKey" (vStr k)) "__fromCache" (vBool true)) := by
  simp only [getSync, h]
  rfl

/-- After filtering out a handle id, no registration with that id remains. -/
theorem any_filter_ne (reg : ObsRegistry) (id : Nat) :
    ((reg.filter fun p => decide (p.1 ≠ id)).any fun p => decide (p.1 = id)) = false := by
  rw [Bool.eq_false_iff]
  intro h
  rw [List.any_eq_true] at h
  obtain ⟨q, hq, hq1⟩ := h
  rw [List.mem_filter] at hq
  exact (decide_eq_true_eq.mp hq.2) (decide_eq_true_eq.mp hq1)

/-- `mergeField` always leaves the merged field present. -/
theorem any_mergeField (fs : List (String × JSVal)) (name : String) (v : JSVal) :
    ((mergeField fs name v).any fun p => decide (p.1 = name)) = true := by
  unfold mergeField
  split
  · rename_i h
    rw [List.any_eq_true] at h ⊢
    obtain ⟨q, hq, hq1⟩ := h
    refine ⟨(name, v), List.mem_map.mpr ⟨q, hq, ?_⟩, by simp⟩
    rw [if_pos (by simpa using hq1)]
  · rw [List.any_eq_true]
    exact ⟨(name, v), by simp, by simp⟩

/-- The rest-destructured payload carries neither bookkeeping field. -/
theorem hasField_stripFields (fs : List (String × JSVal)) (name : String)
    (hn : name = "__cacheKey" ∨ name = "__fromCache") :
    hasField (vObj (stripFields fs)) name = false := by
  unfold hasField stripFields
  rw [Bool.eq_false_iff]
  intro h
  rw [List.any_eq_true] at h
  obtain ⟨q, hq, hq1⟩ := h
  rw [List.mem_filter] at hq
  have hne := decide_eq_true_eq.mp hq.2
  have heq := decide_eq_true_eq.mp hq1
  rcases hn with hn | hn
  · exact hne.1 (hn ▸ heq)
  · exact hne.2 (hn ▸ heq)

/-- A falsy value is never an object, hence has no fields. -/
theorem hasField_of_falsy (v : JSVal) (name : String) (h : truthy v = false) :
    hasField v name = false := by
  cases v <;> first | rfl | simp [truthy] at h

/-- Shared shape of the cache-hit path of `observeData`: with a truthy
`keyName`, `noCache` unset and a truthy cached value, the call delivers the
raw cached value to `onNext` once, touches neither the store nor the
producer, and registers a single observation on the default key. -/
theorem observeData_hit (now : Int) (st : Store) (keyName : String)
    (presult : Except JSVal JSVal) (opts : Options)
    (hk : keyName ≠ "") (hnc : opts.noCache = false)
    (hc : truthy (storeGet now st ("withData__" ++ keyName)) = true) :
    observeData now st keyName presult opts =
      { store := st
        onNextCalls := [storeGet now st ("withData__" ++ keyName)]
        onErrorCalls := []
        producerCalls := 0
        registeredKeys := [vStr ("withData__" ++ keyName)]
        pollScheduled := pollTruthy opts } := by
  have hcd : cachedDataOf now st keyName = storeGet now st ("withData__" ++ keyName) := by
    simp [cachedDataOf, hk]
  have hsb : shouldUseCacheB now st keyName opts = true := by
    simp [shouldUseCacheB, hnc, hcd, hc]
  simp [observeData, hsb, hcd]

/-- C1: on producer rejection, `onError` fires exactly once with the
rejection error and the store entry for the derived key remains absent —
but, contrary to the claim, an observation IS registered: the `.catch`
resolves the chain with `undefined`, so the following `.then` still calls
`observeKey(undefined)` and registers an observation on the key
`undefined`.  Evaluated at the failing input of a producer rejecting with
`Error("network")`. -/
theorem c1_rejection_registers_observation :
    observeData 0 [] "apples" (Except.error (vStr "network")) {}
      = { store := []
          onNextCalls := []
          onErrorCalls := [vStr "network"]
          producerCalls := 1
          registeredKeys := [vUndefined]
          pollScheduled := false } ∧
    (observeData 0 [] "apples" (Except.error (vStr "network")) {}).store.lookup "withData__apples"
      = none ∧
    (observeData 0 [] "apples" (Except.error (vStr "network")) {}).registeredKeys ≠ [] := by
  refine ⟨rfl, rfl, ?_⟩
  have h0 : (observeData 0 [] "apples" (Except.error (vStr "network")) {}).registeredKeys
      = [vUndefined] := rfl
  rw [h0]
  exact List.cons_ne_nil _ _

/-- C2 counterexample: `set(k, v1, 10)` followed by `set(k, v2, null)` does
NOT make the entry immortal — the existing expiration wins the `Math.max`,
so at the 10-second mark `get` is absent and the sweep removes the key,
refuting "after set(key, value, null) the entry never expires" as a
universal statement. -/
theorem c2_counterexample :
    getSync 10000 (jsSet 0 (jsSet 0 [] "k" (vNum 1) (MaxAge.num 10)) "k" (vNum 2) MaxAge.null) "k"
      = vUndefined ∧
    (removeExpiredKeys 10000
        (jsSet 0 (jsSet 0 [] "k" (vNum 1) (MaxAge.num 10)) "k" (vNum 2) MaxAge.null)).lookup "k"
      = none :=
  ⟨rfl, rfl⟩

/-- C2 (amended): after `set(key, value, null)`, provided no live truthy
entry with a (nonzero) expiration existed for the key at call time, the
entry is stored without an expiration: `get` returns the stored value at
every later time and no `removeExpiredKeys` sweep removes it. -/
theorem c2_never_expire_amended (now : Int) (st : Store) (k : String) (v : JSVal)
    (h : existingExpirationFalsy now st k = true) :
    (jsSet now st k v MaxAge.null).lookup k = some ⟨v, none⟩ ∧
    (∀ t, storeGet t (jsSet now st k v MaxAge.null) k = v) ∧
    (∀ t, (removeExpiredKeys t (jsSet now st k v MaxAge.null)).lookup k = some ⟨v, none⟩) := by
  have hset : jsSet now st k v MaxAge.null = storeSet st k v none := by
    unfold jsSet
    rw [if_pos ⟨h, rfl⟩]
  rw [hset]
  refine ⟨lookup_storeSet_self st k v none, fun t => ?_, fun t => ?_⟩
  · rw [storeGet_storeSet_none]
  · unfold removeExpiredKeys
    exact lookup_filter_uniform _ k ⟨v, none⟩ _ (mem_storeSet_uniform st k v none)
      (lookup_storeSet_self st k v none) rfl

/-- C2 witness: on a fresh key, `set(k, 7, null)` stores without expiration
and the value survives any later read and sweep. -/
theorem c2_witness :
    existingExpirationFalsy 0 [] "k" = true ∧
    (jsSet 0 [] "k" (vNum 7) MaxAge.null).lookup "k" = some ⟨vNum 7, none⟩ ∧
    storeGet 999999999 (jsSet 0 [] "k" (vNum 7) MaxAge.null) "k" = vNum 7 ∧
    (removeExpiredKeys 999999999 (jsSet 0 [] "k" (vNum 7) MaxAge.null)).lookup "k"
      = some ⟨vNum 7, none⟩ := by
  have h := c2_never_expire_amended 0 [] "k" (vNum 7) rfl
  exact ⟨rfl, h.1, h.2.1 999999999, h.2.2 999999999⟩

/-- C3: after `set(key, value, maxAge)` with a structured value and
`maxAge > 0`, a `get` strictly within `maxAge` seconds returns the value
merged with the bookkeeping fields `__cacheKey` (the key) and
`__fromCache` (true), whatever the prior state of the store. -/
theorem c3_get_within_max_age (now t m : Int) (st : Store) (k : String)
    (fs : List (String × JSVal))
    (hm : 0 < m) (ht0 : 0 ≤ t) (ht : t < m * 1000) :
    getSync (now + t) (jsSet now st k (vObj fs) (MaxAge.num m)) k
      = vObj (mergeField (mergeField fs "__cacheKey" (vStr k)) "__fromCache" (vBool true)) := by
  have hage : userMaxAgeOrDefault (MaxAge.num m) = m := by
    have h0 : userMaxAgeOrDefault (MaxAge.num m) = if m = 0 then (1 : Int) else m := rfl
    rw [h0, if_neg (by omega)]
  have hnn : MaxAge.num m ≠ MaxAge.null := fun hh => MaxAge.noConfusion hh
  apply getSync_of_live_obj
  rcases hex : existingExpirationOf now st k with _ | oe
  · have harith : ¬(max 0 (now + m * 1000) ≤ now + t) := by
      intro hle
      have h2 := le_trans (le_max_right 0 (now + m * 1000)) hle
      omega
    rw [jsSet_of_no_existing now st k (vObj fs) (MaxAge.num m) hnn hex, hage,
      storeGet_storeSet_some, if_neg harith]
  · rcases oe with _ | e
    · rw [jsSet_of_noexp_existing now st k (vObj fs) (MaxAge.num m) hnn hex,
        storeGet_storeSet_none]
    · have harith : ¬(max e (now + m * 1000) ≤ now + t) := by
        intro hle
        have h2 := le_trans (le_max_right e (now + m * 1000)) hle
        omega
      rw [jsSet_of_exp_existing now st k (vObj fs) (MaxAge.num m) e (Or.inl hnn) hex,
        hage, storeGet_storeSet_some, if_neg harith]

/-- C3 witness: a fresh write with one-second max-age read back 500 ms
later. -/
theorem c3_witness :
    (0 : Int) < 1 ∧ (0 : Int) ≤ 500 ∧ (500 : Int) < 1 * 1000 ∧
    getSync (0 + 500) (jsSet 0 [] "k" (vObj [("a", vNum 7)]) (MaxAge.num 1)) "k"
      = vObj (mergeField (mergeField [("a", vNum 7)] "__cacheKey" (vStr "k"))
          "__fromCache" (vBool true)) :=
  ⟨by decide, by decide, by decide,
    c3_get_within_max_age 0 500 1 [] "k" [("a", vNum 7)] (by decide) (by decide) (by decide)⟩

/-- C4 counterexample: with a falsy first value, `set(k, 0, 10)` followed
by `set(k, 2, 1)` SHORTENS the expiry to the 1-second mark — `store.get`
returns the falsy stored value, so the code treats the entry as absent and
ignores its recorded 10-second expiration, refuting the universally stated
claim. -/
theorem c4_counterexample :
    (jsSet 0 (jsSet 0 [] "k" (vNum 0) (MaxAge.num 10)) "k" (vNum 2) (MaxAge.num 1)).lookup "k"
      = some ⟨vNum 2, some 1000⟩ ∧
    (jsSet 0 [] "k" (vNum 0) (MaxAge.num 10)).lookup "k" = some ⟨vNum 0, some 10000⟩ ∧
    (1000 : Int) ≠ 10000 :=
  ⟨rfl, rfl, by decide⟩

/-- C4 (amended): when an entry with a TRUTHY stored value and a nonzero
recorded expiration exists, a later `set` records the maximum of the
existing expiration and the newly computed one — expiry is extended, never
shortened. -/
theorem c4_extend_only_amended (now : Int) (st : Store) (k : String) (v : JSVal)
    (m : MaxAge) (e : Int)
    (ht : truthy (storeGet now st k) = true)
    (he : rawExpiration st k = some e) (he0 : e ≠ 0) :
    (jsSet now st k v m).lookup k
      = some ⟨v, some (max e (now + userMaxAgeOrDefault m * 1000))⟩ := by
  have hex : existingExpirationOf now st k = some (some e) := by
    unfold existingExpirationOf
    rw [if_pos ht, he]
  rw [jsSet_of_exp_existing now st k v m e (Or.inr he0) hex]
  exact lookup_storeSet_self st k v _

/-- C4 witness: `set(k, 1, 10)` then `set(k, 2, 1)` keeps the 10-second
expiration (`max 10000 1000 = 10000`). -/
theorem c4_witness :
    truthy (storeGet 0 (jsSet 0 [] "k" (vNum 1) (MaxAge.num 10)) "k") = true ∧
    rawExpiration (jsSet 0 [] "k" (vNum 1) (MaxAge.num 10)) "k" = some 10000 ∧
    (10000 : Int) ≠ 0 ∧
    (jsSet 0 (jsSet 0 [] "k" (vNum 1) (MaxAge.num 10)) "k" (vNum 2) (MaxAge.num 1)).lookup "k"
      = some ⟨vNum 2, some (max 10000 (0 + userMaxAgeOrDefault (MaxAge.num 1) * 1000))⟩ ∧
    max (10000 : Int) (0 + userMaxAgeOrDefault (MaxAge.num 1) * 1000) = 10000 :=
  ⟨rfl, rfl, by decide,
    c4_extend_only_amended 0 (jsSet 0 [] "k" (vNum 1) (MaxAge.num 10)) "k" (vNum 2)
      (MaxAge.num 1) 10000 rfl rfl (by decide),
    by decide⟩

/-- The settled fetch chain on a producer resolving a plain object, read
off the definition. -/
theorem fetchFreshData_ok_obj (now : Int) (st : Store) (dk : String) (m : MaxAge)
    (fs : List (String × JSVal)) :
    fetchFreshData now st dk m (Except.ok (vObj fs)) =
      ⟨if truthy (lookupField fs "__fromCache") then st
        else jsSet now st
          (jsKeyString (if truthy (lookupField fs "__cacheKey") then lookupField fs "__cacheKey"
            else vStr dk))
          (vObj (stripFields fs)) m,
       [vObj (stripFields fs)], [], 1,
       if truthy (lookupField fs "__cacheKey") then lookupField fs "__cacheKey" else vStr dk⟩ :=
  rfl

/-- When the cache is not used, `observeData` is the fetch path: the fetch
chain's effects plus a single observation registered on its resolved key. -/
theorem observeData_fetch (now : Int) (st : Store) (keyName : String)
    (presult : Except JSVal JSVal) (opts : Options)
    (hpath : shouldUseCacheB now st keyName opts = false) :
    observeData now st keyName presult opts =
      { store := (fetchFreshData now st ("withData__" ++ keyName) (effMaxAge opts) presult).store
        onNextCalls := (fetchFreshData now st ("withData__" ++ keyName) (effMaxAge opts) presult).onNextCalls
        onErrorCalls := (fetchFreshData now st ("withData__" ++ keyName) (effMaxAge opts) presult).onErrorCalls
        producerCalls := (fetchFreshData now st ("withData__" ++ keyName) (effMaxAge opts) presult).producerCalls
        registeredKeys := [(fetchFreshData now st ("withData__" ++ keyName) (effMaxAge opts) presult).resolvedKey]
        pollScheduled := pollTruthy opts } := by
  unfold observeData
  rw [if_neg (by simp [hpath])]

/-- C5 counterexample: a producer-supplied `__cacheKey` that is PRESENT but
the empty string is ignored — `__cacheKey || defaultKey` tests truthiness,
not presence, so the payload is stored and observed under the default key,
not under the supplied key `""`. -/
theorem c5_counterexample :
    (observeData 0 [] "apples"
        (Except.ok (vObj [("__cacheKey", vStr ""), ("a", vNum 1)])) {}).registeredKeys
      = [vStr "withData__apples"] ∧
    (observeData 0 [] "apples"
        (Except.ok (vObj [("__cacheKey", vStr ""), ("a", vNum 1)])) {}).store.lookup ""
      = none ∧
    (observeData 0 [] "apples"
        (Except.ok (vObj [("__cacheKey", vStr ""), ("a", vNum 1)])) {}).store.lookup "withData__apples"
      = some ⟨vObj [("a", vNum 1)], some 1000⟩ ∧
    ("withData__apples" : String) ≠ "" :=
  ⟨rfl, rfl, rfl, by decide⟩

/-- C5 (amended): on the fetch path with a resolving producer, the payload
is the result minus the two bookkeeping fields, the storage key is the
producer-supplied `__cacheKey` when TRUTHY and otherwise the default key,
the payload is persisted via `set(key, payload, maxAge)` iff `__fromCache`
is falsy, `onNext` fires once with the payload in every case, and the
observation is registered on the chosen key. -/
theorem c5_fetch_success_amended (now : Int) (st : Store) (keyName : String)
    (fs : List (String × JSVal)) (opts : Options)
    (hpath : shouldUseCacheB now st keyName opts = false) :
    (observeData now st keyName (Except.ok (vObj fs)) opts).onNextCalls
      = [vObj (stripFields fs)] ∧
    hasField (vObj (stripFields fs)) "__cacheKey" = false ∧
    hasField (vObj (stripFields fs)) "__fromCache" = false ∧
    (observeData now st keyName (Except.ok (vObj fs)) opts).registeredKeys
      = [if truthy (lookupField fs "__cacheKey") then lookupField fs "__cacheKey"
         else vStr ("withData__" ++ keyName)] ∧
    (truthy (lookupField fs "__fromCache") = false →
      (observeData now st keyName (Except.ok (vObj fs)) opts).store
        = jsSet now st
            (jsKeyString (if truthy (lookupField fs "__cacheKey") then lookupField fs "__cacheKey"
              else vStr ("withData__" ++ keyName)))
            (vObj (stripFields fs)) (effMaxAge opts)) ∧
    (truthy (lookupField fs "__fromCache") = true →
      (observeData now st keyName (Except.ok (vObj fs)) opts).store = st) := by
  rw [observeData_fetch now st keyName (Except.ok (vObj fs)) opts hpath,
    fetchFreshData_ok_obj]
  refine ⟨rfl, hasField_stripFields fs "__cacheKey" (Or.inl rfl),
    hasField_stripFields fs "__fromCache" (Or.inr rfl), rfl, fun hfc => ?_, fun hfc => ?_⟩
  · rw [if_neg (by simp [hfc])]
  · rw [if_pos hfc]

/-- C5 witness: a producer result with no bookkeeping fields on an empty
cache is stored under the default key and delivered once. -/
theorem c5_witness :
    shouldUseCacheB 0 [] "a" {} = false ∧
    (observeData 0 [] "a" (Except.ok (vObj [("x", vNum 1)])) {}).onNextCalls
      = [vObj (stripFields [("x", vNum 1)])] ∧
    (observeData 0 [] "a" (Except.ok (vObj [("x", vNum 1)])) {}).store
      = jsSet 0 []
          (jsKeyString (if truthy (lookupField [("x", vNum 1)] "__cacheKey")
            then lookupField [("x", vNum 1)] "__cacheKey" else vStr ("withData__" ++ "a")))
          (vObj (stripFields [("x", vNum 1)])) (effMaxAge {}) := by
  have h := c5_fetch_success_amended 0 [] "a" [("x", vNum 1)] {} rfl
  exact ⟨rfl, h.1, h.2.2.2.2.1 rfl⟩

/-- C6 counterexample: on a cache hit with `pollInterval` set, the
invocation itself does not call the producer, but a poll is scheduled and
its first tick does — so "the producer function is not invoked at all" is
false for poll-enabled invocations. -/
theorem c6_counterexample :
    (observeData 0 [("withData__apples", ⟨vObj [("r", vNum 1)], some 1000⟩)] "apples"
        (Except.ok (vObj [("r", vNum 2)])) { pollInterval := some 5 }).onNextCalls
      = [vObj [("r", vNum 1)]] ∧
    (observeData 0 [("withData__apples", ⟨vObj [("r", vNum 1)], some 1000⟩)] "apples"
        (Except.ok (vObj [("r", vNum 2)])) { pollInterval := some 5 }).producerCalls = 0 ∧
    (observeData 0 [("withData__apples", ⟨vObj [("r", vNum 1)], some 1000⟩)] "apples"
        (Except.ok (vObj [("r", vNum 2)])) { pollInterval := some 5 }).pollScheduled = true ∧
    producerCallsAfterOneTick 0 5000 [("withData__apples", ⟨vObj [("r", vNum 1)], some 1000⟩)]
        "apples" (Except.ok (vObj [("r", vNum 2)])) (Except.ok (vObj [("r", vNum 3)]))
        { pollInterval := some 5 } = 1 ∧
    (1 : Nat) ≠ 0 :=
  ⟨rfl, rfl, rfl, rfl, by decide⟩

/-- C6 (amended): on a cache hit (truthy `keyName`, `noCache` unset, truthy
cached value), `onNext` is invoked synchronously with the cached value and
the producer is not invoked during the invocation itself; when a poll
interval is set the scheduled timer later re-runs the fetch path. -/
theorem c6_cache_hit_amended (now : Int) (st : Store) (keyName : String)
    (presult : Except JSVal JSVal) (opts : Options)
    (hk : keyName ≠ "") (hnc : opts.noCache = false)
    (hc : truthy (storeGet now st ("withData__" ++ keyName)) = true) :
    (observeData now st keyName presult opts).onNextCalls
      = [storeGet now st ("withData__" ++ keyName)] ∧
    (observeData now st keyName presult opts).producerCalls = 0 ∧
    (observeData now st keyName presult opts).store = st ∧
    (observeData now st keyName presult opts).registeredKeys
      = [vStr ("withData__" ++ keyName)] := by
  rw [observeData_hit now st keyName presult opts hk hnc hc]
  exact ⟨rfl, rfl, rfl, rfl⟩

/-- C6 witness: a repeated call within the max-age window serves the cached
value without calling the producer. -/
theorem c6_witness :
    ("apples" : String) ≠ "" ∧
    truthy (storeGet 0 [("withData__apples", ⟨vObj [("r", vNum 1)], some 1000⟩)]
      ("withData__" ++ "apples")) = true ∧
    (observeData 0 [("withData__apples", ⟨vObj [("r", vNum 1)], some 1000⟩)] "apples"
        (Except.ok (vObj [("r", vNum 2)])) {}).onNextCalls
      = [storeGet 0 [("withData__apples", ⟨vObj [("r", vNum 1)], some 1000⟩)]
          ("withData__" ++ "apples")] ∧
    (observeData 0 [("withData__apples", ⟨vObj [("r", vNum 1)], some 1000⟩)] "apples"
        (Except.ok (vObj [("r", vNum 2)])) {}).producerCalls = 0 := by
  have h := c6_cache_hit_amended 0 [("withData__apples", ⟨vObj [("r", vNum 1)], some 1000⟩)]
    "apples" (Except.ok (vObj [("r", vNum 2)])) {} (by decide) rfl rfl
  exact ⟨by decide, rfl, h.1, h.2.1⟩

/-- C7: over a store whose recorded expirations are positive timestamps,
`removeExpiredKeys` removes exactly the entries whose `expiresAt ≤ now` at
call time and leaves every other entry — including entries with no
expiration — unchanged and in place. -/
theorem c7_sweep_exact (now : Int) (st : Store) (h : posExpirations st = true) :
    removeExpiredKeys now st = st.filter (fun p => !expiredAtCallTime now p.2) := by
  unfold removeExpiredKeys
  apply List.filter_congr
  intro p hp
  have hpos := (List.all_eq_true.mp h) p hp
  rcases p with ⟨k0, v0, oe⟩
  rcases oe with _ | e
  · rfl
  · have he : (0 : Int) < e := by simpa using hpos
    show (if e ≠ 0 ∧ e ≤ now then false else true) = !decide (e ≤ now)
    by_cases hle : e ≤ now
    · rw [if_pos ⟨by omega, hle⟩]
      simp [hle]
    · rw [if_neg (fun hh => hle hh.2)]
      simp [hle]

/-- C7 witness: at time 10, an entry expiring at 5 is removed while a
never-expiring entry and one expiring at 20 survive unchanged. -/
theorem c7_witness :
    posExpirations [("a", ⟨vNum 1, none⟩), ("b", ⟨vNum 2, some 5⟩), ("c", ⟨vNum 3, some 20⟩)]
      = true ∧
    removeExpiredKeys 10 [("a", ⟨vNum 1, none⟩), ("b", ⟨vNum 2, some 5⟩), ("c", ⟨vNum 3, some 20⟩)]
      = List.filter (fun p => !expiredAtCallTime 10 p.2)
          [("a", ⟨vNum 1, none⟩), ("b", ⟨vNum 2, some 5⟩), ("c", ⟨vNum 3, some 20⟩)] ∧
    removeExpiredKeys 10 [("a", ⟨vNum 1, none⟩), ("b", ⟨vNum 2, some 5⟩), ("c", ⟨vNum 3, some 20⟩)]
      = [("a", ⟨vNum 1, none⟩), ("c", ⟨vNum 3, some 20⟩)] :=
  ⟨rfl,
    c7_sweep_exact 10 [("a", ⟨vNum 1, none⟩), ("b", ⟨vNum 2, some 5⟩), ("c", ⟨vNum 3, some 20⟩)] rfl,
    rfl⟩

/-- C8: `unobserveData` never throws: a second call with the same handle —
by then the raw `store.unobserve` does error — is swallowed into a logged
no-op, and a call with a handle unknown to the registry leaves the registry
unchanged and merely logs. -/
theorem c8_unobserve_tolerant (reg : ObsRegistry) (id : Nat) :
    unobserveData (unobserveData reg id).1 id = ((unobserveData reg id).1, true) ∧
    ((∀ p ∈ reg, p.1 ≠ id) → unobserveData reg id = (reg, true)) := by
  constructor
  · by_cases h : (reg.any fun p => decide (p.1 = id)) = true
    · have h1 : unobserveData reg id = (reg.filter fun p => decide (p.1 ≠ id), false) := by
        unfold unobserveData storeUnobserve
        rw [if_pos h]
      rw [h1]
      unfold unobserveData storeUnobserve
      rw [if_neg (by rw [any_filter_ne]; exact Bool.false_ne_true)]
    · have h0 : (reg.any fun p => decide (p.1 = id)) = false :=
        Bool.eq_false_iff.mpr h
      have h1 : unobserveData reg id = (reg, true) := by
        unfold unobserveData storeUnobserve
        rw [if_neg (by rw [h0]; exact Bool.false_ne_true)]
      rw [h1]
      exact h1
  · intro hnone
    have h0 : (reg.any fun p => decide (p.1 = id)) = false := by
      rw [Bool.eq_false_iff]
      intro hh
      rw [List.any_eq_true] at hh
      obtain ⟨q, hq, hq1⟩ := hh
      exact hnone q hq (decide_eq_true_eq.mp hq1)
    unfold unobserveData storeUnobserve
    rw [if_neg (by rw [h0]; exact Bool.false_ne_true)]

/-- C8 witness: removing handle 1 twice ends in a logged no-op, and handle
2 — never registered — is tolerated unchanged. -/
theorem c8_witness :
    unobserveData (unobserveData ([(1, "a")] : ObsRegistry) 1).1 1
      = ((unobserveData ([(1, "a")] : ObsRegistry) 1).1, true) ∧
    unobserveData ([(1, "a")] : ObsRegistry) 2 = ([(1, "a")], true) :=
  ⟨(c8_unobserve_tolerant [(1, "a")] 1).1,
    (c8_unobserve_tolerant [(1, "a")] 2).2 (by decide)⟩

/-- C9 counterexample: a stored `false` is returned raw by `getSync`, but
it is NOT the same value as the `undefined` of an absent key — the two are
distinguishable at the get interface, refuting the "indistinguishable from
an absent key" part of the claim. -/
theorem c9_counterexample :
    getSync 0 [("k", ⟨vBool false, none⟩)] "k" = vBool false ∧
    getSync 0 [("k", ⟨vBool false, none⟩)] "missing" = vUndefined ∧
    vBool false ≠ vUndefined :=
  ⟨rfl, rfl, fun h => JSVal.noConfusion h⟩

/-- C9 (amended): a falsy stored value is returned by `getSync` exactly as
read from the store, never annotated — like an absent key it carries
neither `__cacheKey` nor `__fromCache` — though the raw value itself (e.g.
`false`) may still differ from the absent sentinel `undefined`. -/
theorem c9_falsy_raw_amended (now : Int) (st : Store) (k : String)
    (hf : truthy (storeGet now st k) = false) :
    getSync now st k = storeGet now st k ∧
    hasField (getSync now st k) "__fromCache" = false ∧
    hasField (getSync now st k) "__cacheKey" = false := by
  have h1 : getSync now st k = storeGet now st k := by
    unfold getSync
    rw [if_neg (by rw [hf]; exact Bool.false_ne_true)]
  refine ⟨h1, ?_, ?_⟩
  · rw [h1]
    exact hasField_of_falsy _ _ hf
  · rw [h1]
    exact hasField_of_falsy _ _ hf

/-- C9 witness: a stored `0` under key "z" comes back raw and unannotated. -/
theorem c9_witness :
    truthy (storeGet 0 [("z", ⟨vNum 0, none⟩)] "z") = false ∧
    getSync 0 [("z", ⟨vNum 0, none⟩)] "z" = storeGet 0 [("z", ⟨vNum 0, none⟩)] "z" ∧
    hasField (getSync 0 [("z", ⟨vNum 0, none⟩)] "z") "__fromCache" = false :=
  ⟨rfl, (c9_falsy_raw_amended 0 [("z", ⟨vNum 0, none⟩)] "z" rfl).1,
    (c9_falsy_raw_amended 0 [("z", ⟨vNum 0, none⟩)] "z" rfl).2.1⟩

/-- C10: on the cache-hit path, `onNext` receives the raw stored value; if
that value does not itself carry `__fromCache`, neither does the delivered
payload — while the exported `getSync` for the same key DOES annotate its
result with `__fromCache`, so the cache marker is visible only at the
get interface, not in the `onNext` payload. -/
theorem c10_cache_hit_raw (now : Int) (st : Store) (keyName : String)
    (presult : Except JSVal JSVal) (opts : Options) (en : Entry)
    (hk : keyName ≠ "") (hnc : opts.noCache = false)
    (hlk : st.lookup ("withData__" ++ keyName) = some en)
    (hlive : storeGet now st ("withData__" ++ keyName) = en.value)
    (htr : truthy en.value = true) :
    (observeData now st keyName presult opts).onNextCalls = [en.value] ∧
    (hasField en.value "__fromCache" = false →
      ∀ x ∈ (observeData now st keyName presult opts).onNextCalls,
        hasField x "__fromCache" = false) ∧
    hasField (getSync now st ("withData__" ++ keyName)) "__fromCache" = true := by
  have hc : truthy (storeGet now st ("withData__" ++ keyName)) = true := by
    rw [hlive]
    exact htr
  rw [observeData_hit now st keyName presult opts hk hnc hc]
  refine ⟨by rw [hlive], fun hnf x hx => ?_, ?_⟩
  · simp only [List.mem_singleton] at hx
    rw [hx, hlive]
    exact hnf
  · unfold getSync
    rw [if_pos hc]
    unfold hasField
    exact any_mergeField _ "__fromCache" (vBool true)

/-- C10 witness: a cached object without bookkeeping fields is delivered
raw to `onNext`, while `getSync` on the same key is annotated. -/
theorem c10_witness :
    (observeData 0 [("withData__a", ⟨vObj [("x", vNum 1)], none⟩)] "a"
        (Except.ok (vObj [])) {}).onNextCalls = [vObj [("x", vNum 1)]] ∧
    hasField (vObj [("x", vNum 1)]) "__fromCache" = false ∧
    (∀ x ∈ (observeData 0 [("withData__a", ⟨vObj [("x", vNum 1)], none⟩)] "a"
        (Except.ok (vObj [])) {}).onNextCalls, hasField x "__fromCache" = false) ∧
    hasField (getSync 0 [("withData__a", ⟨vObj [("x", vNum 1)], none⟩)] ("withData__" ++ "a"))
      "__fromCache" = true := by
  have h := c10_cache_hit_raw 0 [("withData__a", ⟨vObj [("x", vNum 1)], none⟩)] "a"
    (Except.ok (vObj [])) {} ⟨vObj [("x", vNum 1)], none⟩ (by decide) rfl rfl rfl rfl
  exact ⟨h.1, rfl, h.2.1 rfl, h.2.2⟩

end WithData
